import Mathlib

/-
  Verification development for the sync-file-system remote-change pipeline
  (chrome/browser/sync_file_system).  The service implementation
  (DriveFileSyncService, RemoteChangeHandler) is exercised by
  drive_file_sync_service_mock_unittest.cc; the behavioral model below is a
  shallow embedding of that pipeline.
-/

set_option maxHeartbeats 1000000

/-- Modelled from the spec: the file type of a remote entry
    (SYNC_FILE_TYPE_UNKNOWN / _FILE / _DIRECTORY in the source headers; the
    implementation file that consumes it is not under src). -/
inductive SyncFileType where
  | unknown
  | file
  | directory
  deriving DecidableEq, Repr

/-- Modelled from the spec: the status taxonomy of section 7 (SyncStatusCode
    in the source headers; the implementation file is not under src). -/
inductive SyncStatusCode where
  | ok
  | fileBusy
  | noChangeToSync
  | remoteAPIError
  | unknown
  deriving DecidableEq, Repr

/-- Modelled from the spec: a syncable file system url, the pair of an origin
    and a relative path (fileapi FileSystemURL restricted to the fields the
    core consults). -/
structure FileSystemURL where
  origin : String
  path : String
  deriving DecidableEq, Repr

/-- Modelled from the spec: one PendingChange record of section 3, keyed by
    url in the queue, so the url itself is kept outside this record. -/
structure RemoteChange where
  changestamp : Nat
  resourceId : String
  md5 : String
  isDeleted : Bool
  deriving DecidableEq, Repr

/-- The pending-change queue: at most one entry per url is an invariant to be
    proved, so the model keeps a plain association list. -/
abbrev ChangeQueue := List (FileSystemURL × RemoteChange)

/-- Modelled from the spec: RemoteChangeHandler.GetChangeForURL, the lookup of
    the single pending entry for a url (first match in the list). -/
def getChangeForURL : ChangeQueue → FileSystemURL → Option RemoteChange
  | [], _ => none
  | p :: rest, url => if p.1 = url then some p.2 else getChangeForURL rest url

/-- Removes every entry of the queue keyed by the given url. -/
def removeURL : ChangeQueue → FileSystemURL → ChangeQueue
  | [], _ => []
  | p :: rest, url =>
      if p.1 = url then removeURL rest url else p :: removeURL rest url

/-- Modelled from the spec: RemoteChangeHandler.ChangesSize. -/
def changesSize (q : ChangeQueue) : Nat := q.length

/-- Modelled from the spec: RemoteChangeHandler.HasChanges. -/
def hasChanges (q : ChangeQueue) : Bool := !q.isEmpty

/-- Modelled from the spec: the comparison step of the override rule of
    section 4.1.  The incoming change is compared against the local
    comparison ids (resource id, content hash) when they are known; with no
    known local file a deletion is a no-op and is dropped, and a non-deletion
    is accepted.  With known ids, a mismatching resource id is dropped, a
    deletion for the matching resource is accepted, and a non-deletion is
    accepted only when its content hash differs. -/
def checkAgainstLocal : Option (String × String) → String → String → Bool → Bool
  | none, _, _, isDeleted => !isDeleted
  | some (localRid, localMd5), resourceId, md5, isDeleted =>
      if localRid ≠ resourceId then false
      else if isDeleted then true
      else if localMd5 = md5 then false
      else true

/-- Modelled from the spec: the accept/reject decision of
    DriveFileSyncService.AppendRemoteChangeInternal, whose implementation
    file is not under src.  It follows the override rule of spec section 4.1
    with its resource-id tie-break pinned to the expectations of
    DriveFileSyncServiceMockTest.RemoteChange_Override (src lines 953-998):
    folder-kind entries are rejected; a changestamp not above the pending one
    is rejected; otherwise the incoming change is compared against the
    pending entry, where a pending deletion clears the comparison ids. -/
def appendRemoteChangeDecision (existing : Option RemoteChange)
    (changestamp : Nat) (resourceId md5 : String) (isDeleted : Bool)
    (fileType : SyncFileType) : Bool :=
  if fileType = SyncFileType.directory then false
  else
    match existing with
    | none => checkAgainstLocal none resourceId md5 isDeleted
    | some e =>
        if changestamp ≤ e.changestamp then false
        else
          checkAgainstLocal
            (if e.isDeleted then none else some (e.resourceId, e.md5))
            resourceId md5 isDeleted

/-- Modelled from the spec: DriveFileSyncService.AppendRemoteChangeInternal
    acting on the queue (the implementation file is not under src).  When the
    decision accepts, the entry for the url is replaced by the incoming
    change; otherwise the queue is left untouched.  Returns the accepted flag
    together with the new queue. -/
def appendRemoteChange (q : ChangeQueue) (url : FileSystemURL)
    (changestamp : Nat) (resourceId md5 : String) (isDeleted : Bool)
    (fileType : SyncFileType) : Bool × ChangeQueue :=
  if appendRemoteChangeDecision (getChangeForURL q url) changestamp
      resourceId md5 isDeleted fileType then
    (true, (url, ⟨changestamp, resourceId, md5, isDeleted⟩) :: removeURL q url)
  else
    (false, q)

/-- Counts the queue entries keyed by a url. -/
def countURL : ChangeQueue → FileSystemURL → Nat
  | [], _ => 0
  | p :: rest, url => (if p.1 = url then 1 else 0) + countURL rest url

/-- One recorded call to the append operation, for stating properties of
    whole call sequences. -/
structure AppendCall where
  url : FileSystemURL
  changestamp : Nat
  resourceId : String
  md5 : String
  isDeleted : Bool
  fileType : SyncFileType
  deriving DecidableEq, Repr

/-- Runs a sequence of append calls against a queue, keeping only the
    resulting queue of each step. -/
def applyAppendCalls : List AppendCall → ChangeQueue → ChangeQueue
  | [], q => q
  | c :: rest, q =>
      applyAppendCalls rest
        (appendRemoteChange q c.url c.changestamp c.resourceId c.md5
          c.isDeleted c.fileType).2

/-- The url used by DriveFileSyncServiceMockTest for its single test file. -/
def urlA : FileSystemURL := ⟨"chrome-extension://example1", "File 1.mp3"⟩

/-- Appends one change for urlA and keeps the resulting queue. -/
def stepQueue (q : ChangeQueue) (cs : Nat) (rid md5 : String) (del : Bool) :
    ChangeQueue :=
  (appendRemoteChange q urlA cs rid md5 del SyncFileType.file).2

/-- Queue holding the first accepted change of the RemoteChange_Override
    test: changestamp 2, resource R1, hash md5, not deleted. -/
def c1Queue : ChangeQueue := stepQueue [] 2 "R1" "md5" false

/-- Queue holding a pending deletion entry. -/
def c2Queue : ChangeQueue := [(urlA, ⟨6, "R1", "dmd5", true⟩)]

/-- A non-deletion change as popped in the processing tests. -/
def c8Change : RemoteChange := ⟨12345, "file:2_file_resource_id", "md5", false⟩

/-- Modelled from the spec: the outcome of the prepare phase of
    RemoteChangeProcessor.PrepareForProcessRemoteChange as the state machine
    branches on it — busy, metadata-not-found (unknown local file), or an
    existing / not-modified local file. -/
inductive PrepareResult where
  | busy
  | notFound
  | notModified
  deriving DecidableEq, Repr

/-- Modelled from the spec: SyncFileStatus values observers may receive. -/
inductive SyncFileStatus where
  | unknown
  | synced
  deriving DecidableEq, Repr

/-- Modelled from the spec: SyncAction classification of an applied change. -/
inductive SyncAction where
  | none
  | added
  | updated
  | deleted
  deriving DecidableEq, Repr

/-- Modelled from the spec: SyncDirection of an applied change. -/
inductive SyncDirection where
  | none
  | localToRemote
  | remoteToLocal
  deriving DecidableEq, Repr

/-- Modelled from the spec: one OnFileStatusChanged observer call. -/
structure FileStatusNotification where
  url : FileSystemURL
  fileStatus : SyncFileStatus
  action : SyncAction
  direction : SyncDirection
  deriving DecidableEq, Repr

/-- Observable trace of one ProcessRemoteChange invocation: the terminal
    status, the urls passed to ClearLocalChanges, how many downloads and
    applies ran, and the observer notifications emitted. -/
structure ProcessTrace where
  status : SyncStatusCode
  resultUrl : FileSystemURL
  clearLocalUrls : List FileSystemURL
  downloadCalls : Nat
  applyCalls : Nat
  notifications : List FileStatusNotification
  deriving DecidableEq, Repr

/-- Modelled from the spec: processing of one popped change by the
    DriveFileSyncService state machine of section 4.3, whose implementation
    file is not under src.  The prepare, download and apply outcomes are
    passed in as parameters standing for the collaborator replies.  A busy
    prepare aborts before the download and apply states, yet the finalize
    step still clears local changes, as pinned by
    DriveFileSyncServiceMockTest.RemoteChange_Busy (src lines 792-812).
    Otherwise local changes are cleared, content is downloaded unless the
    change is a deletion, the change is applied, and on success a single
    observer notification classifies the action from the prepare outcome and
    the deletion flag. -/
def processChange (url : FileSystemURL) (change : RemoteChange)
    (prep : PrepareResult) (downloadStatus applyStatus : SyncStatusCode) :
    ProcessTrace :=
  match prep with
  | PrepareResult.busy =>
      { status := SyncStatusCode.fileBusy
        resultUrl := url
        clearLocalUrls := [url]
        downloadCalls := 0
        applyCalls := 0
        notifications := [] }
  | _ =>
      if change.isDeleted then
        if applyStatus = SyncStatusCode.ok then
          { status := SyncStatusCode.ok
            resultUrl := url
            clearLocalUrls := [url]
            downloadCalls := 0
            applyCalls := 1
            notifications :=
              [⟨url, SyncFileStatus.synced, SyncAction.deleted,
                SyncDirection.remoteToLocal⟩] }
        else
          { status := applyStatus
            resultUrl := url
            clearLocalUrls := [url]
            downloadCalls := 0
            applyCalls := 1
            notifications := [] }
      else if downloadStatus ≠ SyncStatusCode.ok then
        { status := downloadStatus
          resultUrl := url
          clearLocalUrls := [url]
          downloadCalls := 1
          applyCalls := 0
          notifications := [] }
      else if applyStatus = SyncStatusCode.ok then
        { status := SyncStatusCode.ok
          resultUrl := url
          clearLocalUrls := [url]
          downloadCalls := 1
          applyCalls := 1
          notifications :=
            [⟨url, SyncFileStatus.synced,
              (if prep = PrepareResult.notFound then SyncAction.added
               else SyncAction.updated),
              SyncDirection.remoteToLocal⟩] }
      else
        { status := applyStatus
          resultUrl := url
          clearLocalUrls := [url]
          downloadCalls := 1
          applyCalls := 1
          notifications := [] }

/-- Modelled from the spec: one ProcessRemoteChange invocation pops exactly
    one pending change (the queue head in this model; any deterministic
    order is allowed) or reports NoChangeToSync on an empty queue; the popped
    change is dropped from the queue whatever the terminal outcome
    (at-most-once attempt per dequeue). -/
def processRemoteChange (q : ChangeQueue) (prep : PrepareResult)
    (downloadStatus applyStatus : SyncStatusCode) :
    ProcessTrace × ChangeQueue :=
  match q with
  | [] =>
      ({ status := SyncStatusCode.noChangeToSync
         resultUrl := ⟨"", ""⟩
         clearLocalUrls := []
         downloadCalls := 0
         applyCalls := 0
         notifications := [] }, [])
  | (url, change) :: rest =>
      (processChange url change prep downloadStatus applyStatus, rest)

/-- Modelled from the spec: the per-origin sync state of section 3. -/
inductive OriginSyncState where
  | batch
  | incremental
  | disabled
  deriving DecidableEq, Repr

/-- Modelled from the spec: one entry of a remote directory listing as
    consumed by batch sync — relative path, resource id, content hash, and
    the entry kind (leaf file or folder). -/
structure RemoteEntry where
  path : String
  resourceId : String
  md5 : String
  kind : SyncFileType
  deriving DecidableEq, Repr

/-- Core state visible to the registration coordinator: the per-origin sync
    states and the pending-change queue. -/
structure ServiceState where
  originStates : List (String × OriginSyncState)
  queue : ChangeQueue
  deriving DecidableEq, Repr

/-- Looks up the sync state recorded for an origin (first match). -/
def getOriginState : List (String × OriginSyncState) → String →
    Option OriginSyncState
  | [], _ => none
  | p :: rest, o => if p.1 = o then some p.2 else getOriginState rest o

/-- Records a sync state for an origin, dropping any earlier record. -/
def setOriginState (l : List (String × OriginSyncState)) (o : String)
    (s : OriginSyncState) : List (String × OriginSyncState) :=
  (o, s) :: l.filter (fun p => !(decide (p.1 = o)))

/-- Counts the queue entries belonging to an origin. -/
def countOrigin : ChangeQueue → String → Nat
  | [], _ => 0
  | p :: rest, o => (if p.1.origin = o then 1 else 0) + countOrigin rest o

/-- Modelled from the spec: the batch-sync walk of section 4.2 step 4 — each
    listing entry is enqueued as a non-deletion pending change at the fetched
    changestamp ceiling (folder-kind entries are rejected by the append
    rule). -/
def enqueueListing (origin : String) (largestChangestamp : Nat) :
    List RemoteEntry → ChangeQueue → ChangeQueue
  | [], q => q
  | e :: rest, q =>
      enqueueListing origin largestChangestamp rest
        (appendRemoteChange q ⟨origin, e.path⟩ largestChangestamp
          e.resourceId e.md5 false e.kind).2

/-- Modelled from the spec:
    DriveFileSyncService.RegisterOriginForTrackingChanges of section 4.2,
    whose implementation file is not under src.  The directoryResolved flag
    stands for the success of steps 1-2 (sync-root and origin-directory
    resolution): on failure no mapping is committed.  On success the mapping
    is recorded; with sync enabled the directory listing is walked into the
    queue and the origin ends Incremental, with sync disabled the origin
    stays Batch. -/
def registerOriginForTrackingChanges (st : ServiceState) (origin : String)
    (syncEnabled : Bool) (directoryResolved : Bool)
    (listing : List RemoteEntry) (largestChangestamp : Nat) :
    SyncStatusCode × ServiceState :=
  if ¬directoryResolved then (SyncStatusCode.remoteAPIError, st)
  else if syncEnabled then
    (SyncStatusCode.ok,
     { originStates :=
         setOriginState st.originStates origin OriginSyncState.incremental
       queue := enqueueListing origin largestChangestamp listing st.queue })
  else
    (SyncStatusCode.ok,
     { originStates := setOriginState st.originStates origin OriginSyncState.batch
       queue := st.queue })

/-- Modelled from the spec: the reconciliation of per-origin sync states of
    section 4.2 — an uninstalled origin is unregistered, a disabled origin
    moves to Disabled, and a re-enabled Disabled origin restarts at Batch
    (never directly at Incremental). -/
def reconcileOriginStates (enabled installed : List String) :
    List (String × OriginSyncState) → List (String × OriginSyncState)
  | [] => []
  | p :: rest =>
      let tail := reconcileOriginStates enabled installed rest
      if installed.contains p.1 then
        (p.1,
         if enabled.contains p.1 then
           (if p.2 = OriginSyncState.disabled then OriginSyncState.batch
            else p.2)
         else OriginSyncState.disabled) :: tail
      else tail

/-- Modelled from the spec:
    DriveFileSyncService.UpdateRegisteredOrigins, whose implementation file
    is not under src.  Origin states are reconciled against the
    caller-supplied extension state, and queued changes of origins that are
    no longer enabled and installed are discarded. -/
def updateRegisteredOrigins (enabled installed : List String)
    (st : ServiceState) : ServiceState :=
  { originStates := reconcileOriginStates enabled installed st.originStates
    queue :=
      st.queue.filter
        (fun p => installed.contains p.1.origin && enabled.contains p.1.origin) }

/-- A one-origin service state with one queued change, for the
    reconciliation scenarios. -/
def c10st : ServiceState :=
  { originStates := [("chrome-extension://example1", OriginSyncState.incremental)]
    queue := [(⟨"chrome-extension://example1", "File 1.mp3"⟩, ⟨1, "R1", "md5", false⟩)] }

/-
  Theorems.  First, helper lemmas about the queue operations.
-/

theorem appendRemoteChange_fst (q : ChangeQueue) (url : FileSystemURL)
    (cs : Nat) (rid md5 : String) (del : Bool) (ft : SyncFileType) :
    (appendRemoteChange q url cs rid md5 del ft).1 =
      appendRemoteChangeDecision (getChangeForURL q url) cs rid md5 del ft := by
  cases hb : appendRemoteChangeDecision (getChangeForURL q url) cs rid md5 del ft <;>
    simp [appendRemoteChange, hb]

theorem appendRemoteChange_accept (q : ChangeQueue) (url : FileSystemURL)
    (cs : Nat) (rid md5 : String) (del : Bool) (ft : SyncFileType)
    (h : appendRemoteChangeDecision (getChangeForURL q url) cs rid md5 del ft
        = true) :
    appendRemoteChange q url cs rid md5 del ft =
      (true, (url, ⟨cs, rid, md5, del⟩) :: removeURL q url) := by
  simp [appendRemoteChange, h]

theorem appendRemoteChange_reject (q : ChangeQueue) (url : FileSystemURL)
    (cs : Nat) (rid md5 : String) (del : Bool) (ft : SyncFileType)
    (h : appendRemoteChangeDecision (getChangeForURL q url) cs rid md5 del ft
        = false) :
    appendRemoteChange q url cs rid md5 del ft = (false, q) := by
  simp [appendRemoteChange, h]

theorem decision_of_pending (e : RemoteChange) (cs : Nat) (rid md5 : String)
    (del : Bool) (hcs : e.changestamp < cs) :
    appendRemoteChangeDecision (some e) cs rid md5 del SyncFileType.file =
      checkAgainstLocal
        (if e.isDeleted then none else some (e.resourceId, e.md5))
        rid md5 del := by
  have h : ¬ cs ≤ e.changestamp := by omega
  simp [appendRemoteChangeDecision, h]

theorem decision_stale (e : RemoteChange) (cs : Nat) (rid md5 : String)
    (del : Bool) (ft : SyncFileType) (hcs : cs ≤ e.changestamp) :
    appendRemoteChangeDecision (some e) cs rid md5 del ft = false := by
  cases ft <;> simp [appendRemoteChangeDecision, hcs]

theorem getChangeForURL_cons_self (url : FileSystemURL) (c : RemoteChange)
    (q : ChangeQueue) : getChangeForURL ((url, c) :: q) url = some c := by
  simp [getChangeForURL]

theorem countURL_removeURL_self (q : ChangeQueue) (u : FileSystemURL) :
    countURL (removeURL q u) u = 0 := by
  induction q with
  | nil => rfl
  | cons p rest ih =>
      by_cases h : p.1 = u <;> simp [removeURL, countURL, h, ih]

theorem countURL_removeURL_le (q : ChangeQueue) (u url : FileSystemURL) :
    countURL (removeURL q u) url ≤ countURL q url := by
  induction q with
  | nil => exact Nat.le_refl 0
  | cons p rest ih =>
      by_cases h : p.1 = u
      · simp only [removeURL, h, if_pos, countURL]
        exact Nat.le_trans ih (Nat.le_add_left _ _)
      · simp only [removeURL, h, if_neg, not_false_iff, countURL]
        exact Nat.add_le_add_left ih _

theorem countURL_appendRemoteChange_le (q : ChangeQueue) (u : FileSystemURL)
    (cs : Nat) (rid md5 : String) (del : Bool) (ft : SyncFileType)
    (url : FileSystemURL) :
    countURL (appendRemoteChange q u cs rid md5 del ft).2 url ≤
      max (countURL q url) 1 := by
  cases hb : appendRemoteChangeDecision (getChangeForURL q u) cs rid md5 del ft
  · rw [appendRemoteChange_reject q u cs rid md5 del ft hb]
    exact Nat.le_max_left _ _
  · rw [appendRemoteChange_accept q u cs rid md5 del ft hb]
    by_cases h : u = url
    · subst h
      simp [countURL, countURL_removeURL_self]
    · have h2 : ¬ ((u, (⟨cs, rid, md5, del⟩ : RemoteChange)).1 = url) := h
      simp only [countURL, if_neg h2, Nat.zero_add]
      exact Nat.le_trans (countURL_removeURL_le q u url)
        (Nat.le_max_left _ _)

/-- The append model reproduces every expectation of
    DriveFileSyncServiceMockTest.RemoteChange_Override (src lines 953-998)
    and DriveFileSyncServiceMockTest.RemoteChange_Folder (src lines
    1013-1019). -/
theorem appendRemoteChange_matches_override_unittest :
    (appendRemoteChange [] urlA 2 "R1" "md5" false SyncFileType.file).1
      = true ∧
    (appendRemoteChange c1Queue urlA 1 "R1" "md5_2" false
      SyncFileType.file).1 = false ∧
    (appendRemoteChange c1Queue urlA 4 "R1" "md5" false
      SyncFileType.file).1 = false ∧
    (appendRemoteChange c1Queue urlA 5 "R2" "updated_md5" false
      SyncFileType.file).1 = false ∧
    (appendRemoteChange c1Queue urlA 5 "R2" "deleted_md5" true
      SyncFileType.file).1 = false ∧
    (appendRemoteChange c1Queue urlA 6 "R1" "deleted_md5" true
      SyncFileType.file).1 = true ∧
    (appendRemoteChange (stepQueue c1Queue 6 "R1" "deleted_md5" true)
      urlA 7 "R2" "deleted_md5" true SyncFileType.file).1 = false ∧
    (appendRemoteChange (stepQueue c1Queue 6 "R1" "deleted_md5" true)
      urlA 8 "R2" "updated_md5" false SyncFileType.file).1 = true ∧
    (appendRemoteChange [] urlA 1 "R1" "md5" false
      SyncFileType.directory).1 = false := by
  decide

/-- C1 counterexample: the queue holds a pending entry for urlA with
    changestamp 2, resource id R1, hash md5, not deleted.  An incoming
    change with strictly higher changestamp 5, differing resource id R2 and
    differing hash (so neither a stale delivery nor a no-op content repeat,
    with the deletion flag unchanged) is rejected and leaves the queue
    untouched, although the claim says such a call is accepted and replaces
    the entry unconditionally. -/
theorem claim_C1_counterexample :
    getChangeForURL c1Queue urlA = some ⟨2, "R1", "md5", false⟩ ∧
    appendRemoteChange c1Queue urlA 5 "R2" "updated_md5" false
      SyncFileType.file = (false, c1Queue) := by
  decide

/-- C1 amended: for a url with a pending entry and an incoming leaf-file
    change with strictly higher changestamp, the call is accepted and
    replaces the entry exactly when either the pending entry is a deletion
    and the incoming change is not, or the pending entry is a non-deletion
    with the same resource id and the incoming change is a deletion or
    carries a different content hash; all other calls, in particular every
    remaining resource-id change, are rejected. -/
theorem claim_C1_amended (q : ChangeQueue) (url : FileSystemURL)
    (e : RemoteChange) (cs : Nat) (rid md5 : String) (del : Bool)
    (hq : getChangeForURL q url = some e) (hcs : e.changestamp < cs) :
    ((appendRemoteChange q url cs rid md5 del SyncFileType.file).1 = true ↔
      (if e.isDeleted then del = false
       else e.resourceId = rid ∧ (del = true ∨ e.md5 ≠ md5))) ∧
    ((appendRemoteChange q url cs rid md5 del SyncFileType.file).1 = true →
      getChangeForURL
        (appendRemoteChange q url cs rid md5 del SyncFileType.file).2 url =
        some ⟨cs, rid, md5, del⟩) := by
  have hfst := appendRemoteChange_fst q url cs rid md5 del SyncFileType.file
  rw [hq, decision_of_pending e cs rid md5 del hcs] at hfst
  constructor
  · rw [hfst]
    by_cases hrid : e.resourceId = rid <;> by_cases hmd5 : e.md5 = md5 <;>
      cases he : e.isDeleted <;> cases del <;>
        simp [checkAgainstLocal, he, hrid, hmd5]
  · intro hacc
    have hdec : appendRemoteChangeDecision (getChangeForURL q url) cs rid md5
        del SyncFileType.file = true := by
      rw [← appendRemoteChange_fst]
      exact hacc
    rw [appendRemoteChange_accept q url cs rid md5 del SyncFileType.file hdec]
    exact getChangeForURL_cons_self url ⟨cs, rid, md5, del⟩ (removeURL q url)

/-- C1 amended witness: with a pending deletion entry, a creation at a
    higher changestamp with a different resource id is accepted and replaces
    the entry. -/
theorem claim_C1_amended_witness :
    getChangeForURL
      (appendRemoteChange c2Queue urlA 8 "R2" "umd5" false
        SyncFileType.file).2 urlA = some ⟨8, "R2", "umd5", false⟩ :=
  (claim_C1_amended c2Queue urlA ⟨6, "R1", "dmd5", true⟩ 8 "R2" "umd5" false
    (by decide) (by decide)).2 (by decide)

/-- C2: for a url with a pending entry, an incoming change with strictly
    higher changestamp but a differing resource id is accepted exactly when
    the pending entry is a deletion and the incoming change is not; in that
    case it replaces the entry, and it is rejected otherwise. -/
theorem claim_C2 (q : ChangeQueue) (url : FileSystemURL) (e : RemoteChange)
    (cs : Nat) (rid md5 : String) (del : Bool)
    (hq : getChangeForURL q url = some e) (hcs : e.changestamp < cs)
    (hrid : rid ≠ e.resourceId) :
    ((appendRemoteChange q url cs rid md5 del SyncFileType.file).1 = true ↔
      (e.isDeleted = true ∧ del = false)) ∧
    (e.isDeleted = true → del = false →
      getChangeForURL
        (appendRemoteChange q url cs rid md5 del SyncFileType.file).2 url =
        some ⟨cs, rid, md5, del⟩) := by
  have hfst := appendRemoteChange_fst q url cs rid md5 del SyncFileType.file
  rw [hq, decision_of_pending e cs rid md5 del hcs] at hfst
  have hrid2 : e.resourceId ≠ rid := fun h => hrid h.symm
  constructor
  · rw [hfst]
    cases he : e.isDeleted <;> cases del <;>
      simp [checkAgainstLocal, he, hrid2]
  · intro he hdel
    have hdec : appendRemoteChangeDecision (getChangeForURL q url) cs rid md5
        del SyncFileType.file = true := by
      rw [hq, decision_of_pending e cs rid md5 del hcs]
      simp [checkAgainstLocal, he, hdel]
    rw [appendRemoteChange_accept q url cs rid md5 del SyncFileType.file hdec]
    exact getChangeForURL_cons_self url ⟨cs, rid, md5, del⟩ (removeURL q url)

/-- C2 witness: a pending deletion entry at changestamp 6 is replaced by an
    incoming creation at changestamp 8 under a different resource id. -/
theorem claim_C2_witness :
    (appendRemoteChange c2Queue urlA 8 "R2" "umd5" false
      SyncFileType.file).1 = true :=
  (claim_C2 c2Queue urlA ⟨6, "R1", "dmd5", true⟩ 8 "R2" "umd5" false
    (by decide) (by decide) (by decide)).1.mpr ⟨rfl, rfl⟩

/-- C5: across any sequence of append calls started from an empty queue the
    queue holds at most one entry per url; an accepted call for a url with a
    pending entry has a strictly higher changestamp (so accepted
    changestamps are non-decreasing); and a call whose changestamp does not
    exceed the pending one is rejected with the queue unchanged. -/
theorem claim_C5 :
    (∀ (calls : List AppendCall) (url : FileSystemURL),
      countURL (applyAppendCalls calls []) url ≤ 1) ∧
    (∀ (q : ChangeQueue) (url : FileSystemURL) (e : RemoteChange) (cs : Nat)
        (rid md5 : String) (del : Bool) (ft : SyncFileType),
      getChangeForURL q url = some e →
      (appendRemoteChange q url cs rid md5 del ft).1 = true →
      e.changestamp < cs) ∧
    (∀ (q : ChangeQueue) (url : FileSystemURL) (e : RemoteChange) (cs : Nat)
        (rid md5 : String) (del : Bool) (ft : SyncFileType),
      getChangeForURL q url = some e → cs ≤ e.changestamp →
      appendRemoteChange q url cs rid md5 del ft = (false, q)) := by
  refine ⟨?_, ?_, ?_⟩
  · have key : ∀ (calls : List AppendCall) (q : ChangeQueue)
        (url : FileSystemURL),
        countURL q url ≤ 1 → countURL (applyAppendCalls calls q) url ≤ 1 := by
      intro calls
      induction calls with
      | nil => intro q url h; exact h
      | cons c rest ih =>
          intro q url h
          apply ih
          exact Nat.le_trans
            (countURL_appendRemoteChange_le q c.url c.changestamp c.resourceId
              c.md5 c.isDeleted c.fileType url)
            (max_le h (Nat.le_refl 1))
    intro calls url
    exact key calls [] url (Nat.le_refl 0 |>.trans (Nat.zero_le 1))
  · intro q url e cs rid md5 del ft hq hacc
    by_cases hle : cs ≤ e.changestamp
    · exfalso
      have hfst := appendRemoteChange_fst q url cs rid md5 del ft
      rw [hq, decision_stale e cs rid md5 del ft hle] at hfst
      rw [hfst] at hacc
      exact Bool.false_ne_true hacc
    · omega
  · intro q url e cs rid md5 del ft hq hle
    apply appendRemoteChange_reject
    rw [hq]
    exact decision_stale e cs rid md5 del ft hle

/-- C5 witness: the invariants evaluated on the RemoteChange_Override
    prefix — a one-call sequence keeps at most one entry for urlA, an
    accepted higher-changestamp call witnesses strict growth, and the stale
    changestamp-1 call of the test is rejected with the queue unchanged. -/
theorem claim_C5_witness :
    countURL
      (applyAppendCalls [⟨urlA, 2, "R1", "md5", false, SyncFileType.file⟩] [])
      urlA ≤ 1 ∧
    (RemoteChange.mk 2 "R1" "md5" false).changestamp < 4 ∧
    appendRemoteChange c1Queue urlA 1 "R1" "md5_2" false SyncFileType.file =
      (false, c1Queue) :=
  ⟨claim_C5.1 [⟨urlA, 2, "R1", "md5", false, SyncFileType.file⟩] urlA,
   claim_C5.2.1 c1Queue urlA ⟨2, "R1", "md5", false⟩ 4 "R1" "md5x" false
     SyncFileType.file (by decide) (by decide),
   claim_C5.2.2 c1Queue urlA ⟨2, "R1", "md5", false⟩ 1 "R1" "md5_2" false
     SyncFileType.file (by decide) (by decide)⟩

/-- C6: an incoming change whose resource id, content hash and deletion flag
    all equal those of the pending entry for the url is rejected whatever
    its changestamp, and re-appending an already accepted tuple is rejected
    and leaves the queue exactly as it was (a safe no-op, never a duplicate
    entry). -/
theorem claim_C6 :
    (∀ (q : ChangeQueue) (url : FileSystemURL) (e : RemoteChange) (cs : Nat)
        (ft : SyncFileType),
      getChangeForURL q url = some e →
      appendRemoteChange q url cs e.resourceId e.md5 e.isDeleted ft
        = (false, q)) ∧
    (∀ (q : ChangeQueue) (url : FileSystemURL) (cs : Nat) (rid md5 : String)
        (del : Bool) (ft : SyncFileType) (q2 : ChangeQueue),
      appendRemoteChange q url cs rid md5 del ft = (true, q2) →
      appendRemoteChange q2 url cs rid md5 del ft = (false, q2)) := by
  constructor
  · intro q url e cs ft hq
    apply appendRemoteChange_reject
    rw [hq]
    by_cases hle : cs ≤ e.changestamp
    · exact decision_stale e cs e.resourceId e.md5 e.isDeleted ft hle
    · have hch : checkAgainstLocal
          (if e.isDeleted then none else some (e.resourceId, e.md5))
          e.resourceId e.md5 e.isDeleted = false := by
        cases he : e.isDeleted <;> simp [checkAgainstLocal, he]
      cases ft <;> simp [appendRemoteChangeDecision, hle, hch]
  · intro q url cs rid md5 del ft q2 hacc
    cases hb : appendRemoteChangeDecision (getChangeForURL q url) cs rid md5
        del ft
    · rw [appendRemoteChange_reject q url cs rid md5 del ft hb] at hacc
      injection hacc with h1 h2
      exact absurd h1 Bool.false_ne_true
    · rw [appendRemoteChange_accept q url cs rid md5 del ft hb] at hacc
      injection hacc with h1 h2
      subst h2
      apply appendRemoteChange_reject
      rw [getChangeForURL_cons_self]
      exact decision_stale ⟨cs, rid, md5, del⟩ cs rid md5 del ft
        (Nat.le_refl cs)

/-- C6 witness: with the changestamp-2 entry pending, an identical tuple at
    changestamp 9 is rejected, and replaying the originally accepted call is
    rejected with the queue unchanged. -/
theorem claim_C6_witness :
    appendRemoteChange c1Queue urlA 9 "R1" "md5" false SyncFileType.file =
      (false, c1Queue) ∧
    appendRemoteChange c1Queue urlA 2 "R1" "md5" false SyncFileType.file =
      (false, c1Queue) :=
  ⟨claim_C6.1 c1Queue urlA ⟨2, "R1", "md5", false⟩ 9 SyncFileType.file
     (by decide),
   claim_C6.2 [] urlA 2 "R1" "md5" false SyncFileType.file c1Queue
     (by decide)⟩

/-- C7: every append of a folder-kind entry is rejected, whatever the
    changestamp and queue contents, and the queue and its size are left
    unchanged: the queue stores only leaf-file changes. -/
theorem claim_C7 (q : ChangeQueue) (url : FileSystemURL) (cs : Nat)
    (rid md5 : String) (del : Bool) :
    appendRemoteChange q url cs rid md5 del SyncFileType.directory
      = (false, q) ∧
    changesSize
      (appendRemoteChange q url cs rid md5 del SyncFileType.directory).2 =
      changesSize q := by
  have h : appendRemoteChangeDecision (getChangeForURL q url) cs rid md5 del
      SyncFileType.directory = false := by
    simp [appendRemoteChangeDecision]
  have h2 := appendRemoteChange_reject q url cs rid md5 del
    SyncFileType.directory h
  exact ⟨h2, by rw [h2]⟩

/-- C3 counterexample: processing a popped change whose prepare phase
    reports FileBusy terminates with status FileBusy, yet ClearLocalChanges
    is invoked for the url of the change, although the claim says no further
    state of the machine runs, in particular not ClearLocalChanges — as in
    DriveFileSyncServiceMockTest.RemoteChange_Busy, which expects exactly
    one ClearLocalChanges call. -/
theorem claim_C3_counterexample :
    (processRemoteChange [(urlA, c8Change)] PrepareResult.busy
      SyncStatusCode.ok SyncStatusCode.ok).1.status
      = SyncStatusCode.fileBusy ∧
    (processRemoteChange [(urlA, c8Change)] PrepareResult.busy
      SyncStatusCode.ok SyncStatusCode.ok).1.clearLocalUrls ≠ [] := by
  decide

/-- C3 amended: when the prepare phase of a popped change reports FileBusy
    the invocation terminates with status FileBusy, no download and no apply
    run and no observer notification is emitted, but ClearLocalChanges is
    still invoked once for the url of the change, and the change is dropped
    from the queue. -/
theorem claim_C3_amended (url : FileSystemURL) (change : RemoteChange)
    (rest : ChangeQueue) (downloadStatus applyStatus : SyncStatusCode) :
    processRemoteChange ((url, change) :: rest) PrepareResult.busy
        downloadStatus applyStatus =
      ({ status := SyncStatusCode.fileBusy
         resultUrl := url
         clearLocalUrls := [url]
         downloadCalls := 0
         applyCalls := 0
         notifications := [] }, rest) := rfl

/-- C4: when the prepare phase of a popped change reports FileBusy the
    invocation terminates with status FileBusy, no OnFileStatusChanged
    observer call is made, and ClearLocalChanges is still invoked for the
    url of the change. -/
theorem claim_C4 (url : FileSystemURL) (change : RemoteChange)
    (rest : ChangeQueue) (downloadStatus applyStatus : SyncStatusCode) :
    (processRemoteChange ((url, change) :: rest) PrepareResult.busy
        downloadStatus applyStatus).1.status = SyncStatusCode.fileBusy ∧
    (processRemoteChange ((url, change) :: rest) PrepareResult.busy
        downloadStatus applyStatus).1.notifications = [] ∧
    (processRemoteChange ((url, change) :: rest) PrepareResult.busy
        downloadStatus applyStatus).1.clearLocalUrls = [url] :=
  ⟨rfl, rfl, rfl⟩

/-- C8: driving a non-deletion change to successful completion emits exactly
    one FileStatusChanged notification carrying the url of the change,
    status Synced and direction RemoteToLocal, whose action is Added when
    prepare reported metadata-not-found and Updated when it reported an
    existing, not-modified file. -/
theorem claim_C8 (url : FileSystemURL) (change : RemoteChange)
    (rest : ChangeQueue) (prep : PrepareResult)
    (hdel : change.isDeleted = false) (hprep : prep ≠ PrepareResult.busy) :
    (processRemoteChange ((url, change) :: rest) prep SyncStatusCode.ok
        SyncStatusCode.ok).1.status = SyncStatusCode.ok ∧
    (processRemoteChange ((url, change) :: rest) prep SyncStatusCode.ok
        SyncStatusCode.ok).1.notifications =
      [⟨url, SyncFileStatus.synced,
        (if prep = PrepareResult.notFound then SyncAction.added
         else SyncAction.updated),
        SyncDirection.remoteToLocal⟩] := by
  cases prep with
  | busy => exact absurd rfl hprep
  | notFound =>
      constructor <;> simp [processRemoteChange, processChange, hdel]
  | notModified =>
      constructor <;> simp [processRemoteChange, processChange, hdel]

/-- C8 witness: the new-file scenario — prepare reports metadata-not-found
    for a non-deletion change, and the single emitted notification carries
    action Added. -/
theorem claim_C8_witness :
    (processRemoteChange [(urlA, c8Change)] PrepareResult.notFound
        SyncStatusCode.ok SyncStatusCode.ok).1.status = SyncStatusCode.ok ∧
    (processRemoteChange [(urlA, c8Change)] PrepareResult.notFound
        SyncStatusCode.ok SyncStatusCode.ok).1.notifications =
      [⟨urlA, SyncFileStatus.synced, SyncAction.added,
        SyncDirection.remoteToLocal⟩] :=
  claim_C8 urlA c8Change [] PrepareResult.notFound (by decide) (by decide)

theorem getChangeForURL_of_countOrigin_zero (q : ChangeQueue) (o p : String)
    (h : countOrigin q o = 0) : getChangeForURL q ⟨o, p⟩ = none := by
  induction q with
  | nil => rfl
  | cons hd rest ih =>
      by_cases ho : hd.1.origin = o
      · simp [countOrigin, ho] at h
      · have h2 : countOrigin rest o = 0 := by
          simpa [countOrigin, ho] using h
        have hne : hd.1 ≠ (⟨o, p⟩ : FileSystemURL) := by
          intro he
          apply ho
          rw [he]
        simp [getChangeForURL, hne, ih h2]

theorem countOrigin_removeURL_le (q : ChangeQueue) (u : FileSystemURL)
    (o : String) : countOrigin (removeURL q u) o ≤ countOrigin q o := by
  induction q with
  | nil => exact Nat.le_refl 0
  | cons p rest ih =>
      by_cases h : p.1 = u
      · simp only [removeURL, if_pos h]
        exact Nat.le_trans ih (Nat.le_add_left _ _)
      · simp only [removeURL, if_neg h, countOrigin]
        exact Nat.add_le_add_left ih _

/-- C9: registering an origin with remote sync enabled and directory
    resolution succeeding returns status Ok and leaves the origin
    Incremental; with an empty remote directory the origin contributes zero
    pending changes, and with one leaf file it contributes exactly one. -/
theorem claim_C9 (st : ServiceState) (origin : String) (e : RemoteEntry)
    (cs : Nat) (hclean : countOrigin st.queue origin = 0)
    (hfile : e.kind = SyncFileType.file) :
    ((registerOriginForTrackingChanges st origin true true [] cs).1
        = SyncStatusCode.ok ∧
     getOriginState
        (registerOriginForTrackingChanges st origin true true [] cs).2.originStates
        origin = some OriginSyncState.incremental ∧
     countOrigin
        (registerOriginForTrackingChanges st origin true true [] cs).2.queue
        origin = 0) ∧
    ((registerOriginForTrackingChanges st origin true true [e] cs).1
        = SyncStatusCode.ok ∧
     getOriginState
        (registerOriginForTrackingChanges st origin true true [e] cs).2.originStates
        origin = some OriginSyncState.incremental ∧
     countOrigin
        (registerOriginForTrackingChanges st origin true true [e] cs).2.queue
        origin = 1) := by
  have hreg : ∀ (listing : List RemoteEntry),
      registerOriginForTrackingChanges st origin true true listing cs =
        (SyncStatusCode.ok,
         { originStates :=
             setOriginState st.originStates origin OriginSyncState.incremental
           queue := enqueueListing origin cs listing st.queue }) := by
    intro listing
    simp [registerOriginForTrackingChanges]
  have hstate : getOriginState
      (setOriginState st.originStates origin OriginSyncState.incremental)
      origin = some OriginSyncState.incremental := by
    simp [setOriginState, getOriginState]
  constructor
  · refine ⟨by rw [hreg], ?_, ?_⟩
    · rw [hreg]
      exact hstate
    · rw [hreg]
      show countOrigin (enqueueListing origin cs [] st.queue) origin = 0
      simpa [enqueueListing] using hclean
  · have hnone := getChangeForURL_of_countOrigin_zero st.queue origin e.path
      hclean
    have hdec : appendRemoteChangeDecision
        (getChangeForURL st.queue ⟨origin, e.path⟩) cs e.resourceId e.md5
        false e.kind = true := by
      rw [hnone, hfile]
      simp [appendRemoteChangeDecision, checkAgainstLocal]
    have happ := appendRemoteChange_accept st.queue ⟨origin, e.path⟩ cs
      e.resourceId e.md5 false e.kind hdec
    have hq : enqueueListing origin cs [e] st.queue =
        (⟨origin, e.path⟩, ⟨cs, e.resourceId, e.md5, false⟩) ::
          removeURL st.queue ⟨origin, e.path⟩ := by
      simp [enqueueListing, happ]
    refine ⟨by rw [hreg], ?_, ?_⟩
    · rw [hreg]
      exact hstate
    · rw [hreg]
      show countOrigin (enqueueListing origin cs [e] st.queue) origin = 1
      rw [hq]
      have hle := countOrigin_removeURL_le st.queue ⟨origin, e.path⟩ origin
      have hzero : countOrigin (removeURL st.queue ⟨origin, e.path⟩) origin
          = 0 := by omega
      simp [countOrigin, hzero]

/-- C9 witness: registering a fresh origin over a one-file directory leaves
    exactly one pending change for the origin. -/
theorem claim_C9_witness :
    countOrigin
      (registerOriginForTrackingChanges ⟨[], []⟩ "chrome-extension://example"
        true true [⟨"File 1.mp3", "file:2", "md5", SyncFileType.file⟩]
        9).2.queue "chrome-extension://example" = 1 :=
  (claim_C9 ⟨[], []⟩ "chrome-extension://example"
    ⟨"File 1.mp3", "file:2", "md5", SyncFileType.file⟩ 9 (by decide)
    (by decide)).2.2.2

theorem getOriginState_reconcileOriginStates (enabled installed : List String)
    (l : List (String × OriginSyncState)) (o : String) :
    getOriginState (reconcileOriginStates enabled installed l) o =
      if installed.contains o then
        (getOriginState l o).map
          (fun s =>
            if enabled.contains o then
              (if s = OriginSyncState.disabled then OriginSyncState.batch
               else s)
            else OriginSyncState.disabled)
      else none := by
  induction l with
  | nil =>
      by_cases hc : o ∈ installed <;>
        simp [reconcileOriginStates, getOriginState, hc]
  | cons p rest ih =>
      by_cases hp : p.1 = o
      · by_cases hc : o ∈ installed
        · simp [reconcileOriginStates, hp, hc, getOriginState]
        · simp [reconcileOriginStates, hp, hc, ih, getOriginState]
      · by_cases hcp : p.1 ∈ installed
        · simp [reconcileOriginStates, hcp, getOriginState, hp, ih]
        · simp [reconcileOriginStates, hcp, ih, getOriginState, hp]

theorem countOrigin_filter_disabled (q : ChangeQueue)
    (enabled installed : List String) (o : String) (h : o ∉ enabled) :
    countOrigin
      (q.filter
        (fun p => installed.contains p.1.origin &&
          enabled.contains p.1.origin)) o = 0 := by
  induction q with
  | nil => rfl
  | cons p rest ih =>
      by_cases hp : p.1.origin = o
      · have hnot : p.1.origin ∉ enabled := by
          rw [hp]
          exact h
        have hcond : (installed.contains p.1.origin &&
            enabled.contains p.1.origin) = false := by
          simp [hnot]
        simp only [List.filter_cons, hcond]
        rw [if_neg Bool.false_ne_true]
        exact ih
      · cases hpred : (installed.contains p.1.origin &&
            enabled.contains p.1.origin)
        · simp only [List.filter_cons, hpred]
          rw [if_neg Bool.false_ne_true]
          exact ih
        · simp only [List.filter_cons, hpred]
          rw [if_pos trivial]
          simp only [countOrigin, if_neg hp, Nat.zero_add]
          exact ih

/-- C10: an Incremental origin whose extension is disabled moves to Disabled
    and its queued changes are discarded; re-enabling moves it
    Disabled to Batch, and no reconciliation ever moves a Disabled origin
    directly to Incremental. -/
theorem claim_C10 (st : ServiceState) (origin : String)
    (enabledBefore enabledAfter installed : List String)
    (hinc : getOriginState st.originStates origin
      = some OriginSyncState.incremental)
    (hinst : origin ∈ installed)
    (hdis : origin ∉ enabledBefore)
    (hen : origin ∈ enabledAfter) :
    getOriginState
        (updateRegisteredOrigins enabledBefore installed st).originStates
        origin = some OriginSyncState.disabled ∧
    countOrigin (updateRegisteredOrigins enabledBefore installed st).queue
        origin = 0 ∧
    getOriginState
        (updateRegisteredOrigins enabledAfter installed
          (updateRegisteredOrigins enabledBefore installed st)).originStates
        origin = some OriginSyncState.batch ∧
    (∀ (st2 : ServiceState) (en inst : List String),
      getOriginState st2.originStates origin
          = some OriginSyncState.disabled →
      getOriginState (updateRegisteredOrigins en inst st2).originStates
          origin ≠ some OriginSyncState.incremental) := by
  have h1 : getOriginState
      (updateRegisteredOrigins enabledBefore installed st).originStates
      origin = some OriginSyncState.disabled := by
    show getOriginState
      (reconcileOriginStates enabledBefore installed st.originStates) origin
      = some OriginSyncState.disabled
    rw [getOriginState_reconcileOriginStates, hinc]
    simp [hinst, hdis]
  refine ⟨h1, ?_, ?_, ?_⟩
  · exact countOrigin_filter_disabled st.queue enabledBefore installed origin
      hdis
  · show getOriginState
      (reconcileOriginStates enabledAfter installed
        (updateRegisteredOrigins enabledBefore installed st).originStates)
      origin = some OriginSyncState.batch
    rw [getOriginState_reconcileOriginStates, h1]
    simp [hinst, hen]
  · intro st2 en inst hdis2 hbad
    rw [show (updateRegisteredOrigins en inst st2).originStates =
          reconcileOriginStates en inst st2.originStates from rfl,
        getOriginState_reconcileOriginStates, hdis2] at hbad
    by_cases hc : origin ∈ inst <;> by_cases hc2 : origin ∈ en <;>
      simp [hc, hc2] at hbad

/-- C10 witness: the one-origin state with a queued change runs the
    Incremental to Disabled to Batch scenario, with the queue emptied at the
    disable step. -/
theorem claim_C10_witness :
    getOriginState
        (updateRegisteredOrigins [] ["chrome-extension://example1"]
          c10st).originStates "chrome-extension://example1"
        = some OriginSyncState.disabled ∧
    countOrigin
        (updateRegisteredOrigins [] ["chrome-extension://example1"]
          c10st).queue "chrome-extension://example1" = 0 ∧
    getOriginState
        (updateRegisteredOrigins ["chrome-extension://example1"]
          ["chrome-extension://example1"]
          (updateRegisteredOrigins [] ["chrome-extension://example1"]
            c10st)).originStates "chrome-extension://example1"
        = some OriginSyncState.batch := by
  have h := claim_C10 c10st "chrome-extension://example1" []
    ["chrome-extension://example1"] ["chrome-extension://example1"]
    (by decide) (by decide) (by decide) (by decide)
  exact ⟨h.1, h.2.1, h.2.2.1⟩
